import Mathlib

/-!
Verification of the spaced-repetition scheduling engine and the session /
persistence layer of the project-dictionary vocabulary trainer.

The scheduler `calculateNextReview` (src/lib/srs.ts; the file contains two
revisions of the function, and the later revision — the one with tiered
bootstrap intervals, `Number(x) || d` input coercion, the interval clamp and
the 04:00 due-time normalization — is the one modelled here, since it is the
revision the rest of the code ships) is embedded over exact rationals:
a JavaScript number input that may be non-numeric (NaN) is modelled as
`Option ℚ` with `none` standing for NaN.  Wall-clock time is an epoch
millisecond integer `now`, and local civil time is modelled as UTC epoch
milliseconds plus a fixed offset `off` (also in milliseconds).
-/

namespace ProjectDictionary

/-- Semantics of the JavaScript expression `Number(x) || d` (src/lib/srs.ts
lines coercing the previous state): `x` is either a finite number (`some q`)
or NaN arising from a non-numeric or missing value (`none`); a falsy result
(NaN or 0) is replaced by the default `d`. -/
def jsNumOr (x : Option ℚ) (d : ℚ) : ℚ :=
  match x with
  | none => d
  | some q => if q = 0 then d else q

/-- Semantics of JavaScript `Math.round`: round half toward positive
infinity, i.e. `⌊q + 1/2⌋`. -/
def jsRound (q : ℚ) : ℤ := ⌊q + 1/2⌋

/-- Milliseconds per civil day. -/
def msPerDay : ℤ := 86400000

/-- Milliseconds from local midnight to 04:00:00.000 local time. -/
def fourAmMs : ℤ := 14400000

/-- Semantics of `const d = new Date(t); d.setHours(4, 0, 0, 0); d.getTime()`
(src/lib/srs.ts): keep the local civil day of `t` and force the local
time-of-day to 04:00:00.000.  `off` is the fixed local-timezone offset in
milliseconds (local ms = UTC ms + off). -/
def setHoursFour (t off : ℤ) : ℤ :=
  (Int.fdiv (t + off) msPerDay) * msPerDay + fourAmMs - off

/-- Result record of the scheduler (interface `ReviewResult`, src/lib/srs.ts). -/
structure ReviewResult where
  interval : ℚ
  repetition : ℚ
  efactor : ℚ
  nextReview : ℤ
deriving DecidableEq

/-- Interval chosen in the `grade >= 3` branch of `calculateNextReview`
(src/lib/srs.ts): tiered bootstrap interval for the first and second
successful review, `Math.round(interval * efactor)` afterwards. -/
def successInterval (grade repetition efactor interval : ℚ) : ℚ :=
  if repetition = 0 then
    if grade = 5 then 4 else if grade = 4 then 2 else 1
  else if repetition = 1 then
    if grade = 5 then 10 else if grade = 4 then 6 else 4
  else ((jsRound (interval * efactor) : ℤ) : ℚ)

/-- Interval before the final clamp: success branch for `grade >= 3`,
failure reset to 1 otherwise (src/lib/srs.ts). -/
def rawInterval (grade repetition efactor interval : ℚ) : ℚ :=
  if 3 ≤ grade then successInterval grade repetition efactor interval else 1

/-- Repetition update of `calculateNextReview`: increment on success
(`grade >= 3`), reset to 0 on failure (src/lib/srs.ts). -/
def newRepetition (grade repetition : ℚ) : ℚ :=
  if 3 ≤ grade then repetition + 1 else 0

/-- Clamp of `if (interval < 1) interval = 1;` (src/lib/srs.ts). -/
def clampInterval (i : ℚ) : ℚ := if i < 1 then 1 else i

/-- Easiness-factor update of `calculateNextReview`
(`efactor + (0.1 - (5 - grade) * (0.08 + (5 - grade) * 0.02))`, then clamp at
1.3; src/lib/srs.ts). -/
def newEFactor (grade efactor : ℚ) : ℚ :=
  let e := efactor + (0.1 - (5 - grade) * (0.08 + (5 - grade) * 0.02))
  if e < 1.3 then 1.3 else e

/-- Shallow embedding of `calculateNextReview` (src/lib/srs.ts, the shipped
revision).  Inputs `previousRepetition`, `previousEFactor` and
`previousInterval` are possibly non-numeric JavaScript numbers (`none` = NaN)
and are coerced with `Number(x) || default` exactly as in the source; `now`
is `Date.now()` in epoch milliseconds, `off` the local timezone offset. -/
def calculateNextReview (grade : ℚ)
    (previousRepetition previousEFactor previousInterval : Option ℚ)
    (now off : ℤ) : ReviewResult :=
  let repetition := jsNumOr previousRepetition 0
  let efactor := jsNumOr previousEFactor 2.5
  let interval := jsNumOr previousInterval 0
  let interval2 := clampInterval (rawInterval grade repetition efactor interval)
  { interval := interval2
    repetition := newRepetition grade repetition
    efactor := newEFactor grade efactor
    nextReview := setHoursFour (now + ⌊interval2 * (86400000 : ℚ)⌋) off }

/-- Scheduling state of a learning item as stored between reviews
(fields `repetition`, `efactor`, `interval` of a progress record). -/
structure SRSState where
  repetition : ℚ
  efactor : ℚ
  interval : ℚ
deriving DecidableEq

/-- One completed review: feed an item's stored scheduling state through
`calculateNextReview` and store the result back, as the session layer does. -/
def stepState (grade : ℚ) (now off : ℤ) (s : SRSState) : SRSState :=
  let res := calculateNextReview grade (some s.repetition) (some s.efactor)
    (some s.interval) now off
  { repetition := res.repetition, efactor := res.efactor, interval := res.interval }

/-- States visited by a streak of reviews with the given grades: the state
after the first review, after the second, and so on. -/
def runStream (grades : List ℚ) (now off : ℤ) (s : SRSState) : List SRSState :=
  match grades with
  | [] => []
  | g :: gs => stepState g now off s :: runStream gs now off (stepState g now off s)

/-- One entry of an item's review history (`{date, grade}`,
interface `Progress`, src/lib/types.ts). -/
structure HistoryEntry where
  date : ℤ
  grade : ℚ
deriving DecidableEq

/-- History update performed by both `saveSessionProgress`
(src/lib/services/study-service.ts) and `StudySession.updateProgress`
(src/components/StudySession.tsx): append one `{date, grade}` entry. -/
def appendHistory (history : List HistoryEntry) (now : ℤ) (grade : ℚ) :
    List HistoryEntry :=
  history ++ [{ date := now, grade := grade }]

/-- History of an item after a sequence of completed reviews, each given as a
(timestamp, grade) pair in session order. -/
def runReviews (history : List HistoryEntry) (reviews : List (ℤ × ℚ)) :
    List HistoryEntry :=
  reviews.foldl (fun h r => appendHistory h r.1 r.2) history

/-- Progress record of a term (interface `Progress`, src/lib/types.ts). -/
structure ProgressRecord where
  termId : String
  nextReview : ℤ
  interval : ℚ
  repetition : ℚ
  efactor : ℚ
  history : List HistoryEntry

/-- Singleton settings record (interface `Settings`, src/lib/types.ts). -/
structure SettingsRecord where
  apiKey : String
  apiBaseUrl : String
  model : String
  aiEnabled : Bool
  language : String
  xp : ℚ

/-- Default settings created by the review transaction when the singleton
settings record is missing (src/lib/services/study-service.ts). -/
def defaultSettings : SettingsRecord :=
  { apiKey := ""
    apiBaseUrl := "https://api.openai.com/v1"
    model := "gpt-4o"
    aiEnabled := true
    language := "en-US"
    xp := 0 }

/-- The two stores touched by a review transaction: the progress table keyed
by termId, and the singleton settings record (src/lib/db.ts). -/
structure Database where
  progress : String → Option ProgressRecord
  settings : Option SettingsRecord

/-- Settings store after adding `xpGain` inside a review transaction: update
an existing record with `xp: (xp || 0) + xpGain`, or create default
settings carrying the first XP.  `saveSessionProgress` and `updateProgress`
share this logic (the component default-creation omits the `language` field,
which no claim depends on). -/
def addXp (s : Option SettingsRecord) (xpGain : ℚ) : Option SettingsRecord :=
  match s with
  | some st => some { st with xp := jsNumOr (some st.xp) 0 + xpGain }
  | none => some { defaultSettings with xp := xpGain }

/-- Result of `studyService.saveSessionProgress`: the updated stores plus the
returned `{xpGained, nextReview}` (src/lib/services/study-service.ts). -/
structure SaveResult where
  db : Database
  xpGained : ℚ
  nextReview : ℤ

/-- Shallow embedding of `studyService.saveSessionProgress`
(src/lib/services/study-service.ts).  The transaction re-reads the fresh
progress record, falls back to the caller-supplied copy when it is missing,
writes the rescheduled record with one appended history entry, and adds the
XP to the settings record (creating it when absent).  The returned
nextReview is recomputed from the caller-supplied copy outside the
transaction, exactly as the source does. -/
def saveSessionProgress (termId : String) (grade : ℚ)
    (currentProgress : ProgressRecord) (store : Database) (now off : ℤ) :
    SaveResult :=
  let xpGain := 10 + grade * 2
  let p := (store.progress termId).getD currentProgress
  let result := calculateNextReview grade (some p.repetition) (some p.efactor)
    (some p.interval) now off
  let newRecord : ProgressRecord :=
    { termId := p.termId
      nextReview := result.nextReview
      interval := ((⌊result.interval⌋ : ℤ) : ℚ)
      repetition := ((⌊result.repetition⌋ : ℤ) : ℚ)
      efactor := result.efactor
      history := appendHistory p.history now grade }
  let result2 := calculateNextReview grade (some currentProgress.repetition)
    (some currentProgress.efactor) (some currentProgress.interval) now off
  { db := { progress := fun k => if k = p.termId then some newRecord else store.progress k
            settings := addXp store.settings xpGain }
    xpGained := xpGain
    nextReview := result2.nextReview }

/-- Result of `StudySession.updateProgress`: the updated stores and the
xpReward shown in the UI (src/components/StudySession.tsx). -/
structure UpdateResult where
  db : Database
  xpReward : ℚ

/-- Shallow embedding of `StudySession.updateProgress`
(src/components/StudySession.tsx).  Unlike `saveSessionProgress`, when the
fresh progress record is missing the transaction body returns early and
nothing at all is written; the xpReward UI state was already set before the
transaction. -/
def updateProgress (grade : ℚ) (termId : String) (store : Database)
    (now off : ℤ) : UpdateResult :=
  let xpGain := 10 + grade * 2
  match store.progress termId with
  | none => { db := store, xpReward := xpGain }
  | some freshProgress =>
    let result := calculateNextReview grade (some freshProgress.repetition)
      (some freshProgress.efactor) (some freshProgress.interval) now off
    let newRecord : ProgressRecord :=
      { termId := termId
        nextReview := result.nextReview
        interval := ((⌊result.interval⌋ : ℤ) : ℚ)
        repetition := ((⌊result.repetition⌋ : ℤ) : ℚ)
        efactor := result.efactor
        history := appendHistory freshProgress.history now grade }
    { db := { progress := fun k => if k = termId then some newRecord else store.progress k
              settings := addXp store.settings xpGain }
      xpReward := xpGain }

/-- Evaluation carried by a completed mentor quiz (interface `MentorQuiz`,
src/lib/types.ts). -/
structure MentorQuizEvaluation where
  grade : ℚ
  feedback : String

/-- Mentor quiz attached to a chat message (interface `MentorQuiz`,
src/lib/types.ts; the discriminated `type` and `options` fields are not
relevant to any claim). -/
structure MentorQuiz where
  id : String
  question : String
  completed : Bool
  userAnswer : Option String
  evaluation : Option MentorQuizEvaluation

/-- Mentor chat message (interface `MentorChatMessage`, src/lib/types.ts). -/
structure MentorChatMessage where
  id : String
  sessionId : String
  content : String
  timestamp : ℤ
  quiz : Option MentorQuiz

/-- Mentor chat session (interface `MentorChatSession`, src/lib/types.ts). -/
structure MentorChatSession where
  id : String
  topic : String
  xpEarned : ℚ

/-- Slice of the mentor store touched by `mentorService.updateQuiz`: the
addressed message, the addressed chat session, and the global settings XP
(`getTotalXp()` reads `settings.xp || 0`). -/
structure MentorStore where
  message : Option MentorChatMessage
  chatSession : Option MentorChatSession
  settingsXp : ℚ

/-- Shallow embedding of `mentorService.updateQuiz` (mentor service,
src/lib/services): merge the quiz into the addressed message; when the quiz
is completed and carries an evaluation, add `15 + grade * 3` XP both to the
session's xpEarned and to the global settings XP. -/
def updateQuiz (quiz : MentorQuiz) (store : MentorStore) : MentorStore :=
  match store.message with
  | none => store
  | some message =>
    match message.quiz with
    | none => store
    | some _ =>
      let store2 := { store with message := some { message with quiz := some quiz } }
      if quiz.completed then
        match quiz.evaluation with
        | none => store2
        | some ev =>
          match store2.chatSession with
          | none => store2
          | some session =>
            let xpGain := 15 + ev.grade * 3
            { store2 with
              chatSession := some { session with
                xpEarned := jsNumOr (some session.xpEarned) 0 + xpGain }
              settingsXp := jsNumOr (some store2.settingsXp) 0 + xpGain }
      else store2

/-- Session controller states (`type StudyState`,
src/components/StudySession.tsx). -/
inductive StudyState
  | loading
  | ready
  | question
  | evaluating
  | feedback
  | finished
  | error
deriving DecidableEq

/-- AI evaluation of a submitted answer (`QuizEvaluation`, src/lib/ai.ts). -/
structure QuizEvaluation where
  grade : ℚ
  feedback : String
  correctAnswer : String

/-- An entry of the study queue: a term together with its progress record. -/
structure StudyItem where
  term : String
  progress : ProgressRecord

/-- Component-local state of `StudySession` relevant to the session state
machine (src/components/StudySession.tsx). -/
structure SessionState where
  mode : StudyState
  queue : List StudyItem
  currentItem : Option StudyItem
  aiQuiz : Option String
  userAnswer : String
  evaluation : Option QuizEvaluation
  errorMsg : String
  settingsAiEnabled : Bool
  settingsApiKey : String

/-- Outcome of the suspended `generateQuiz` call awaited by `startItem`. -/
inductive GenOutcome
  | ok (question : String)
  | failed

/-- Outcome of the suspended `evaluateAnswer` call awaited by
`handleSubmitAnswer` while the controller shows `evaluating`. -/
inductive EvalOutcome
  | ok (ev : QuizEvaluation)
  | failed

/-- Shallow embedding of `startItem` (src/components/StudySession.tsx): reset
the per-item state, attempt AI quiz generation when enabled, and land in
`question` whether generation succeeds, fails, or is skipped. -/
def startItem (item : StudyItem) (gen : GenOutcome) (s : SessionState) :
    SessionState :=
  let s2 := { s with
    currentItem := some item
    userAnswer := ""
    aiQuiz := none
    evaluation := none
    mode := StudyState.loading }
  if s2.settingsAiEnabled = true ∧ s2.settingsApiKey ≠ "" then
    match gen with
    | GenOutcome.ok q => { s2 with aiQuiz := some q, mode := StudyState.question }
    | GenOutcome.failed => { s2 with mode := StudyState.question }
  else { s2 with mode := StudyState.question }

/-- Resolution of the awaited AI evaluation inside `handleSubmitAnswer`
(src/components/StudySession.tsx): on success store the evaluation and show
`feedback`; on failure set the offline note and degrade to the same
`feedback` state with no evaluation stored (the feedback view renders the
manual grading buttons exactly when `evaluation` is absent).  Persistence of
a finalized grade is modelled separately by `updateProgress`. -/
def resolveEvaluation (outcome : EvalOutcome) (s : SessionState) : SessionState :=
  match outcome with
  | EvalOutcome.ok ev => { s with evaluation := some ev, mode := StudyState.feedback }
  | EvalOutcome.failed =>
    { s with errorMsg := "AI Synchronizer offline. Please rate recall manually.",
             mode := StudyState.feedback }

/-- Shallow embedding of `handleSubmitAnswer`: with an AI quiz and an API key
the controller enters `evaluating` and resolves the awaited evaluation;
otherwise it goes straight to `feedback`
(src/components/StudySession.tsx). -/
def handleSubmitAnswer (outcome : EvalOutcome) (s : SessionState) : SessionState :=
  match s.currentItem with
  | none => s
  | some _ =>
    if s.aiQuiz.isSome = true ∧ s.settingsApiKey ≠ "" then
      resolveEvaluation outcome { s with mode := StudyState.evaluating }
    else { s with mode := StudyState.feedback }

/-- Shallow embedding of `handleNext` (src/components/StudySession.tsx):
advance the queue (`queue.slice(1)`), then start the next item or finish. -/
def handleNext (gen : GenOutcome) (s : SessionState) : SessionState :=
  let nextQueue := s.queue.drop 1
  match nextQueue with
  | item :: _ => startItem item gen { s with queue := nextQueue }
  | [] => { s with queue := nextQueue, mode := StudyState.finished }

end ProjectDictionary

namespace ProjectDictionary

theorem jsNumOr_some_zero (q : ℚ) : jsNumOr (some q) 0 = q := by
  by_cases h : q = 0 <;> simp [jsNumOr, h]

theorem jsNumOr_some_ne (q d : ℚ) (h : q ≠ 0) : jsNumOr (some q) d = q := by
  simp [jsNumOr, h]

theorem clampInterval_eq_max (i : ℚ) : clampInterval i = max 1 i := by
  unfold clampInterval
  rcases lt_or_le i 1 with h | h
  · simp [h, max_eq_left h.le]
  · simp [not_lt.mpr h, max_eq_right h]

theorem one_le_clampInterval (i : ℚ) : 1 ≤ clampInterval i := by
  rw [clampInterval_eq_max]; exact le_max_left 1 i

theorem le_newEFactor (grade efactor : ℚ) : 1.3 ≤ newEFactor grade efactor := by
  unfold newEFactor
  rcases lt_or_le (efactor + (0.1 - (5 - grade) * (0.08 + (5 - grade) * 0.02))) 1.3 with h | h
  · simp [h]
  · simp [not_lt.mpr h, h]

/-- C1 counterexample: at grade 3 with previousRepetition 2, previousEFactor
2.5 and previousInterval 0 the code clamps the interval to 1, while
round(previousInterval * previousEFactor) = round(0 * 2.5) = 0, so the claim
as stated fails. -/
theorem c1_counterexample :
    (calculateNextReview 3 (some 2) (some 2.5) (some 0) 0 0).interval = 1 ∧
    ((jsRound ((0 : ℚ) * 2.5) : ℤ) : ℚ) = 0 := by
  have hr0 : jsRound (0 : ℚ) = 0 := by
    unfold jsRound
    rw [Int.floor_eq_iff]
    norm_num
  have hr : jsRound ((0 : ℚ) * 2.5) = 0 := by
    rw [zero_mul]
    exact hr0
  constructor
  · have h0 : ¬ ((2 : ℚ) = 0) := by norm_num
    have h1 : ¬ ((2 : ℚ) = 1) := by norm_num
    have h25 : (2.5 : ℚ) ≠ 0 := by norm_num
    simp [calculateNextReview, rawInterval, successInterval, clampInterval,
      jsNumOr_some_zero, jsNumOr_some_ne 2.5 2.5 h25, h0, h1, hr, hr0]
  · rw [hr]
    norm_num

/-- C1 (amended): for grade >= 3, the returned repetition is
previousRepetition + 1; at previousRepetition 0 the interval is 4 / 2 / 1 for
grade 5 / 4 / otherwise; at previousRepetition 1 it is 10 / 6 / 4; and at
previousRepetition >= 2, provided previousEFactor is nonzero (a zero or
non-numeric efactor is first coerced to the default 2.5), the interval is
round(previousInterval * previousEFactor) clamped below to 1. -/
theorem c1_tiered_intervals (grade r e i : ℚ) (now off : ℤ) (hg : 3 ≤ grade) :
    (calculateNextReview grade (some r) (some e) (some i) now off).repetition = r + 1 ∧
    (r = 0 → (calculateNextReview grade (some r) (some e) (some i) now off).interval
      = if grade = 5 then 4 else if grade = 4 then 2 else 1) ∧
    (r = 1 → (calculateNextReview grade (some r) (some e) (some i) now off).interval
      = if grade = 5 then 10 else if grade = 4 then 6 else 4) ∧
    (2 ≤ r → e ≠ 0 → (calculateNextReview grade (some r) (some e) (some i) now off).interval
      = max 1 ((jsRound (i * e) : ℤ) : ℚ)) := by
  refine ⟨?_, ?_, ?_, ?_⟩
  · simp [calculateNextReview, newRepetition, hg, jsNumOr_some_zero]
  · intro hr
    subst hr
    have h5 : ¬ ((0 : ℚ) = 1) := by norm_num
    simp [calculateNextReview, rawInterval, successInterval, hg, jsNumOr_some_zero]
    rcases eq_or_ne grade 5 with h | h
    · simp [h, clampInterval]
    · rcases eq_or_ne grade 4 with h4 | h4
      · simp [h, h4, clampInterval]
      · simp [h, h4, clampInterval]
  · intro hr
    subst hr
    have h1 : ¬ ((1 : ℚ) = 0) := by norm_num
    simp [calculateNextReview, rawInterval, successInterval, hg, jsNumOr_some_zero, h1]
    rcases eq_or_ne grade 5 with h | h
    · simp [h, clampInterval]
    · rcases eq_or_ne grade 4 with h4 | h4
      · simp [h, h4, clampInterval]
      · simp [h, h4, clampInterval]
  · intro hr he
    have h0 : r ≠ 0 := by intro h; rw [h] at hr; norm_num at hr
    have h1 : r ≠ 1 := by intro h; rw [h] at hr; norm_num at hr
    simp [calculateNextReview, rawInterval, successInterval, hg,
      jsNumOr_some_zero, jsNumOr_some_ne e 2.5 he, h0, h1, clampInterval_eq_max]

/-- C1 witness: instantiating the amended claim at grade 5, repetition 0,
efactor 2.5, interval 0 reproduces the bootstrap interval 4. -/
theorem c1_tiered_intervals_witness :
    (3 : ℚ) ≤ 5 ∧ (0 : ℚ) = 0 ∧
    (calculateNextReview 5 (some 0) (some 2.5) (some 0) 0 0).interval = 4 := by
  refine ⟨by norm_num, rfl, ?_⟩
  have h := (c1_tiered_intervals 5 0 2.5 0 0 0 (by norm_num)).2.1 rfl
  simpa using h

/-- C2: a failed recall (grade < 3) always resets the state to repetition 0
and interval 1, whatever the previous repetition, efactor and interval were
(even non-numeric ones). -/
theorem c2_failure_resets (grade : ℚ) (r e i : Option ℚ) (now off : ℤ)
    (hg : grade < 3) :
    (calculateNextReview grade r e i now off).repetition = 0 ∧
    (calculateNextReview grade r e i now off).interval = 1 := by
  have hng : ¬ (3 ≤ grade) := not_le.mpr hg
  constructor
  · simp [calculateNextReview, newRepetition, hng]
  · simp [calculateNextReview, rawInterval, hng, clampInterval]

/-- C2 witness: a blackout (grade 0) on a mature item resets it. -/
theorem c2_failure_resets_witness :
    (0 : ℚ) < 3 ∧
    (calculateNextReview 0 (some 7) (some 2.5) (some 40) 0 0).repetition = 0 ∧
    (calculateNextReview 0 (some 7) (some 2.5) (some 40) 0 0).interval = 1 := by
  exact ⟨by norm_num, c2_failure_resets 0 (some 7) (some 2.5) (some 40) 0 0 (by norm_num)⟩

theorem stepState_repetition (g : ℚ) (now off : ℤ) (s : SRSState) :
    (stepState g now off s).repetition = newRepetition g s.repetition := by
  simp [stepState, calculateNextReview, jsNumOr_some_zero]

theorem stepState_efactor_ge (g : ℚ) (now off : ℤ) (s : SRSState) :
    1.3 ≤ (stepState g now off s).efactor := by
  simp only [stepState, calculateNextReview]
  exact le_newEFactor g (jsNumOr (some s.efactor) 2.5)

theorem stepState_efactor (g : ℚ) (now off : ℤ) (s : SRSState) (he : s.efactor ≠ 0) :
    (stepState g now off s).efactor = newEFactor g s.efactor := by
  simp [stepState, calculateNextReview, jsNumOr_some_ne _ _ he]

theorem stepState_interval_eq (g : ℚ) (now off : ℤ) (s : SRSState) (he : s.efactor ≠ 0) :
    (stepState g now off s).interval
      = clampInterval (rawInterval g s.repetition s.efactor s.interval) := by
  simp [stepState, calculateNextReview, jsNumOr_some_zero, jsNumOr_some_ne _ _ he]

theorem newEFactor_at_floor : newEFactor 0 1.3 = 1.3 := by
  unfold newEFactor
  norm_num

theorem stepState_grade_zero_efactor (now off : ℤ) (s : SRSState) (h : s.efactor = 1.3) :
    (stepState 0 now off s).efactor = 1.3 := by
  have hne : s.efactor ≠ 0 := by rw [h]; norm_num
  rw [stepState_efactor 0 now off s hne, h, newEFactor_at_floor]

theorem iterate_grade_zero_efactor (now off : ℤ) (n : ℕ) :
    ∀ s : SRSState, s.efactor = 1.3 →
      ((stepState 0 now off)^[n] s).efactor = 1.3 := by
  induction n with
  | zero => intro s h; simpa using h
  | succ n ih =>
    intro s h
    rw [Function.iterate_succ_apply]
    exact ih _ (stepState_grade_zero_efactor now off s h)

/-- C3 counterexample: the claim quantifies over any previous state, but a
negative previousRepetition (-5) together with a passing grade yields the
returned repetition -4 < 0, violating the claimed guarantee repetition >= 0. -/
theorem c3_counterexample :
    (calculateNextReview 3 (some (-5)) (some 3) (some 1) 0 0).repetition = -4 ∧
    ¬ (0 ≤ (calculateNextReview 3 (some (-5)) (some 3) (some 1) 0 0).repetition) := by
  have h5 : ((-5 : ℚ)) ≠ 0 := by norm_num
  have hrep : (calculateNextReview 3 (some (-5)) (some 3) (some 1) 0 0).repetition = -4 := by
    simp [calculateNextReview, newRepetition, jsNumOr_some_ne _ _ h5]
    norm_num
  refine ⟨hrep, ?_⟩
  rw [hrep]
  norm_num

/-- C3 (amended): every scheduler output satisfies interval >= 1 and
efactor >= 1.3; the returned repetition is nonnegative whenever the (coerced)
previous repetition is nonnegative; and any number of consecutive grade-0
reviews starting from efactor 1.3 leave the efactor at exactly 1.3 (in
particular ten of them do). -/
theorem c3_output_invariants (grade : ℚ) (r e i : Option ℚ) (now off : ℤ) :
    1 ≤ (calculateNextReview grade r e i now off).interval ∧
    1.3 ≤ (calculateNextReview grade r e i now off).efactor ∧
    (0 ≤ jsNumOr r 0 → 0 ≤ (calculateNextReview grade r e i now off).repetition) ∧
    (∀ s : SRSState, s.efactor = 1.3 →
      ((stepState 0 now off)^[10] s).efactor = 1.3) := by
  refine ⟨?_, ?_, ?_, ?_⟩
  · exact one_le_clampInterval _
  · exact le_newEFactor _ _
  · intro hr
    simp only [calculateNextReview, newRepetition]
    split
    · linarith
    · norm_num
  · exact iterate_grade_zero_efactor now off 10

/-- C3 witness: a blackout review of a mature healthy item keeps all output
bounds, and ten grade-0 reviews from the efactor floor stay at the floor. -/
theorem c3_output_invariants_witness :
    1 ≤ (calculateNextReview 0 (some 7) (some 3) (some 40) 0 0).interval ∧
    0 ≤ jsNumOr (some 7) 0 ∧
    0 ≤ (calculateNextReview 0 (some 7) (some 3) (some 40) 0 0).repetition ∧
    ((stepState 0 0 0)^[10] ⟨0, 1.3, 0⟩).efactor = 1.3 := by
  have h := c3_output_invariants 0 (some 7) (some 3) (some 40) 0 0
  have h7 : 0 ≤ jsNumOr (some 7) 0 := by rw [jsNumOr_some_zero]; norm_num
  exact ⟨h.1, h7, h.2.2.1 h7, h.2.2.2 ⟨0, 1.3, 0⟩ rfl⟩

theorem setHoursFour_emod (t off : ℤ) : (setHoursFour t off + off) % msPerDay = fourAmMs := by
  unfold setHoursFour msPerDay fourAmMs
  generalize Int.fdiv (t + off) 86400000 = q
  omega

theorem setHoursFour_fdiv (t off : ℤ) :
    Int.fdiv (setHoursFour t off + off) msPerDay = Int.fdiv (t + off) msPerDay := by
  unfold setHoursFour msPerDay fourAmMs
  rw [Int.fdiv_eq_ediv _ (by norm_num), Int.fdiv_eq_ediv _ (by norm_num)]
  omega

/-- C4: the scheduled nextReview timestamp always lands at 04:00:00.000 local
time (its local time-of-day in milliseconds is 14400000), on the same local
civil day as the moment `interval` days after the call. -/
theorem c4_due_time_normalization (grade : ℚ) (r e i : Option ℚ) (now off : ℤ) :
    ((calculateNextReview grade r e i now off).nextReview + off) % msPerDay = fourAmMs ∧
    Int.fdiv ((calculateNextReview grade r e i now off).nextReview + off) msPerDay
      = Int.fdiv (now + ⌊(calculateNextReview grade r e i now off).interval * (86400000 : ℚ)⌋ + off)
          msPerDay := by
  constructor
  · exact setHoursFour_emod
      (now + ⌊(calculateNextReview grade r e i now off).interval * (86400000 : ℚ)⌋) off
  · exact setHoursFour_fdiv
      (now + ⌊(calculateNextReview grade r e i now off).interval * (86400000 : ℚ)⌋) off

theorem le_jsRound_mul (n : ℤ) (e : ℚ) (hn : 1 ≤ n) (he : 1 ≤ e) :
    n ≤ jsRound ((n : ℚ) * e) := by
  unfold jsRound
  rw [Int.le_floor]
  have hn0 : (0 : ℚ) ≤ (n : ℚ) := by exact_mod_cast le_trans (by norm_num) hn
  nlinarith

theorem rawInterval_isInt (g r e i : ℚ) : ∃ n : ℤ, rawInterval g r e i = (n : ℚ) := by
  unfold rawInterval successInterval
  split_ifs
  all_goals exact ⟨_, rfl⟩

theorem clampInterval_isInt (q : ℚ) (n : ℤ) (h : q = (n : ℚ)) :
    clampInterval q = ((max 1 n : ℤ) : ℚ) := by
  subst h
  rw [clampInterval_eq_max]
  push_cast
  rfl

theorem stepState_invariant (g : ℚ) (now off : ℤ) (s : SRSState)
    (hg : 3 ≤ g) (hr : 2 ≤ s.repetition) (he : 1.3 ≤ s.efactor) :
    (∃ n : ℤ, 1 ≤ n ∧ (stepState g now off s).interval = (n : ℚ)) ∧
    1.3 ≤ (stepState g now off s).efactor ∧
    2 ≤ (stepState g now off s).repetition := by
  have hene : s.efactor ≠ 0 := ne_of_gt (lt_of_lt_of_le (by norm_num) he)
  refine ⟨?_, stepState_efactor_ge g now off s, ?_⟩
  · obtain ⟨n, hn⟩ := rawInterval_isInt g s.repetition s.efactor s.interval
    refine ⟨max 1 n, le_max_left 1 n, ?_⟩
    rw [stepState_interval_eq g now off s hene]
    exact clampInterval_isInt _ n hn
  · rw [stepState_repetition]
    unfold newRepetition
    rw [if_pos hg]
    linarith

theorem stepState_interval_grow (g : ℚ) (now off : ℤ) (s : SRSState)
    (hg : 3 ≤ g) (hr : 2 ≤ s.repetition) (he : 1.3 ≤ s.efactor)
    (n : ℤ) (hn : 1 ≤ n) (hi : s.interval = (n : ℚ)) :
    s.interval ≤ (stepState g now off s).interval := by
  have hene : s.efactor ≠ 0 := ne_of_gt (lt_of_lt_of_le (by norm_num) he)
  have hr0 : s.repetition ≠ 0 := by intro h; rw [h] at hr; norm_num at hr
  have hr1 : s.repetition ≠ 1 := by intro h; rw [h] at hr; norm_num at hr
  have he1 : 1 ≤ s.efactor := le_trans (by norm_num) he
  rw [stepState_interval_eq g now off s hene]
  unfold rawInterval successInterval
  rw [if_pos hg, if_neg hr0, if_neg hr1, clampInterval_eq_max, hi]
  have hle : n ≤ jsRound ((n : ℚ) * s.efactor) := le_jsRound_mul n s.efactor hn he1
  calc ((n : ℤ) : ℚ) ≤ ((jsRound ((n : ℚ) * s.efactor) : ℤ) : ℚ) := by exact_mod_cast hle
    _ ≤ max 1 ((jsRound ((n : ℚ) * s.efactor) : ℤ) : ℚ) := le_max_right _ _

theorem runStream_chain_cons (gs : List ℚ) (now off : ℤ) :
    ∀ s : SRSState, 2 ≤ s.repetition → 1.3 ≤ s.efactor →
      (∃ n : ℤ, 1 ≤ n ∧ s.interval = (n : ℚ)) →
      (∀ g ∈ gs, 3 ≤ g) →
      List.Chain' (fun a b : SRSState => a.interval ≤ b.interval)
        (s :: runStream gs now off s) := by
  induction gs with
  | nil =>
    intro s _ _ _ _
    simp [runStream]
  | cons g gs ih =>
    intro s hr he hint hg
    obtain ⟨n, hn, hi⟩ := hint
    have hg0 : 3 ≤ g := hg g (by simp)
    have hinv := stepState_invariant g now off s hg0 hr he
    rw [runStream, List.chain'_cons]
    exact ⟨stepState_interval_grow g now off s hg0 hr he n hn hi,
      ih (stepState g now off s) hinv.2.2 hinv.2.1 hinv.1
        (fun x hx => hg x (by simp [hx]))⟩

/-- C5: starting from any state with repetition >= 2 and efactor >= 1.3,
feeding each output back into the scheduler with grades drawn from {3, 4, 5}
produces a non-decreasing sequence of interval values. -/
theorem c5_monotonic_interval_growth (gs : List ℚ) (s : SRSState) (now off : ℤ)
    (hr : 2 ≤ s.repetition) (he : 1.3 ≤ s.efactor)
    (hg : ∀ g ∈ gs, g = 3 ∨ g = 4 ∨ g = 5) :
    List.Chain' (fun a b : SRSState => a.interval ≤ b.interval)
      (runStream gs now off s) := by
  have hg3 : ∀ g ∈ gs, (3 : ℚ) ≤ g := by
    intro g hgm
    rcases hg g hgm with h | h | h <;> rw [h] <;> norm_num
  cases gs with
  | nil => simp [runStream]
  | cons g gs2 =>
    have hg0 : 3 ≤ g := hg3 g (by simp)
    have hinv := stepState_invariant g now off s hg0 hr he
    rw [runStream]
    exact runStream_chain_cons gs2 now off (stepState g now off s)
      hinv.2.2 hinv.2.1 hinv.1 (fun x hx => hg3 x (by simp [hx]))

/-- C5 witness: a concrete success streak (grades 3 then 4) from repetition 2,
efactor 2, interval 5 has non-decreasing intervals. -/
theorem c5_monotonic_interval_growth_witness :
    (2 : ℚ) ≤ (SRSState.mk 2 2 5).repetition ∧
    (1.3 : ℚ) ≤ (SRSState.mk 2 2 5).efactor ∧
    List.Chain' (fun a b : SRSState => a.interval ≤ b.interval)
      (runStream [3, 4] 0 0 (SRSState.mk 2 2 5)) := by
  refine ⟨by norm_num, by norm_num, ?_⟩
  refine c5_monotonic_interval_growth [3, 4] (SRSState.mk 2 2 5) 0 0
    (by norm_num) (by norm_num) ?_
  intro g hgm
  simp only [List.mem_cons, List.not_mem_nil, or_false] at hgm
  rcases hgm with h | h <;> simp [h]

theorem runReviews_eq_append (reviews : List (ℤ × ℚ)) :
    ∀ history : List HistoryEntry,
      runReviews history reviews
        = history ++ reviews.map (fun r => { date := r.1, grade := r.2 }) := by
  induction reviews with
  | nil =>
    intro history
    simp [runReviews]
  | cons r rs ih =>
    intro history
    have h1 : runReviews history (r :: rs) = runReviews (appendHistory history r.1 r.2) rs := rfl
    rw [h1, ih, appendHistory]
    simp

/-- C6: the history of an item is append-only — after K completed reviews its
length is the pre-session length plus K, the pre-session history is still a
prefix (nothing removed or reordered), and when the pre-session history was
chronological and the reviews happen afterwards in order, the whole history
stays in chronological order. -/
theorem c6_history_append_only (history : List HistoryEntry) (reviews : List (ℤ × ℚ))
    (hsorted : List.Chain' (fun a b : HistoryEntry => a.date ≤ b.date) history)
    (hafter : ∀ h ∈ history, ∀ r ∈ reviews, h.date ≤ r.1)
    (hmono : List.Chain' (fun a b : ℤ × ℚ => a.1 ≤ b.1) reviews) :
    (runReviews history reviews).length = history.length + reviews.length ∧
    history <+: runReviews history reviews ∧
    List.Chain' (fun a b : HistoryEntry => a.date ≤ b.date) (runReviews history reviews) := by
  rw [runReviews_eq_append]
  refine ⟨by simp, List.prefix_append _ _, ?_⟩
  rw [List.chain'_append]
  refine ⟨hsorted, ?_, ?_⟩
  · rw [List.chain'_map]
    exact hmono
  · intro x hx y hy
    obtain ⟨hne, hxl⟩ := List.mem_getLast?_eq_getLast hx
    have hxmem : x ∈ history := hxl ▸ List.getLast_mem hne
    rw [List.head?_map, Option.mem_def, Option.map_eq_some'] at hy
    obtain ⟨r, hr, hyr⟩ := hy
    have hrmem : r ∈ reviews := List.mem_of_mem_head? (Option.mem_def.mpr hr)
    rw [← hyr]
    exact hafter x hxmem r hrmem

/-- C6 witness: two concrete reviews appended to a one-entry history give
length 1 + 2. -/
theorem c6_history_append_only_witness :
    List.Chain' (fun a b : HistoryEntry => a.date ≤ b.date) [HistoryEntry.mk 0 3] ∧
    (runReviews [HistoryEntry.mk 0 3] [(5, 4), (6, 0)]).length = 1 + 2 := by
  constructor
  · simp
  · exact (c6_history_append_only [HistoryEntry.mk 0 3] [(5, 4), (6, 0)]
      (by simp) (by decide) (by norm_num [List.chain'_cons])).1

/-- C7: for every finalized grade — failing grades included — both standard
review paths award 10 + grade * 2 XP, and a completed, evaluated mentor quiz
awards 15 + grade * 3 XP onto the session's xpEarned. -/
theorem c7_xp_formulas (grade : ℚ) (termId : String) (cp : ProgressRecord)
    (store : Database) (now off : ℤ) (mstore : MentorStore)
    (message : MentorChatMessage) (oldQuiz : MentorQuiz)
    (session : MentorChatSession) (quiz : MentorQuiz) (ev : MentorQuizEvaluation)
    (hmsg : mstore.message = some message) (hq : message.quiz = some oldQuiz)
    (hsession : mstore.chatSession = some session)
    (hc : quiz.completed = true) (hev : quiz.evaluation = some ev) :
    (saveSessionProgress termId grade cp store now off).xpGained = 10 + grade * 2 ∧
    (updateProgress grade termId store now off).xpReward = 10 + grade * 2 ∧
    (updateQuiz quiz mstore).chatSession
      = some { session with
          xpEarned := jsNumOr (some session.xpEarned) 0 + (15 + ev.grade * 3) } := by
  refine ⟨rfl, ?_, ?_⟩
  · cases hp : store.progress termId <;> simp [updateProgress, hp]
  · simp [updateQuiz, hmsg, hq, hc, hev, hsession]

/-- C7 witness: a grade-4 review and a completed grade-4 mentor quiz at
concrete stores. -/
theorem c7_xp_formulas_witness :
    (MentorQuiz.mk "q1" "new" true (some "ans") (some ⟨4, "good"⟩)).completed = true ∧
    (saveSessionProgress "t1" 4 ⟨"t1", 0, 0, 0, 1, []⟩ ⟨fun _ => none, none⟩ 0 0).xpGained
      = 10 + 4 * 2 ∧
    (updateQuiz (MentorQuiz.mk "q1" "new" true (some "ans") (some ⟨4, "good"⟩))
        ⟨some ⟨"m1", "s1", "c", 0, some ⟨"q0", "old", false, none, none⟩⟩,
          some ⟨"s1", "t", 20⟩, 5⟩).chatSession
      = some ⟨"s1", "t", jsNumOr (some 20) 0 + (15 + 4 * 3)⟩ := by
  have h := c7_xp_formulas 4 "t1" ⟨"t1", 0, 0, 0, 1, []⟩ ⟨fun _ => none, none⟩ 0 0
    ⟨some ⟨"m1", "s1", "c", 0, some ⟨"q0", "old", false, none, none⟩⟩,
      some ⟨"s1", "t", 20⟩, 5⟩
    ⟨"m1", "s1", "c", 0, some ⟨"q0", "old", false, none, none⟩⟩
    ⟨"q0", "old", false, none, none⟩ ⟨"s1", "t", 20⟩
    (MentorQuiz.mk "q1" "new" true (some "ans") (some ⟨4, "good"⟩)) ⟨4, "good"⟩
    rfl rfl rfl rfl rfl
  exact ⟨rfl, h.1, h.2.2⟩

theorem startItem_mode (item : StudyItem) (gen : GenOutcome) (s : SessionState) :
    (startItem item gen s).mode = StudyState.question := by
  cases gen <;>
    simp [startItem, apply_ite (fun st : SessionState => st.mode)]

/-- C8: an AI-grading failure while the controller is `evaluating` degrades
to the `feedback` state with no stored evaluation (so the manual grading
buttons render), never to `error`, and advancing from there reaches
`question` for the next item or `finished` — the session stays resumable. -/
theorem c8_degrade_not_crash (s : SessionState) (gen : GenOutcome)
    (_hmode : s.mode = StudyState.evaluating) (hev : s.evaluation = none) :
    (resolveEvaluation EvalOutcome.failed s).mode = StudyState.feedback ∧
    (resolveEvaluation EvalOutcome.failed s).mode ≠ StudyState.error ∧
    (resolveEvaluation EvalOutcome.failed s).evaluation = none ∧
    ((handleNext gen (resolveEvaluation EvalOutcome.failed s)).mode = StudyState.question ∨
      (handleNext gen (resolveEvaluation EvalOutcome.failed s)).mode = StudyState.finished) := by
  refine ⟨rfl, by simp [resolveEvaluation], ?_, ?_⟩
  · simpa [resolveEvaluation] using hev
  · rcases hq : (resolveEvaluation EvalOutcome.failed s).queue.drop 1 with _ | ⟨a, t⟩
    · right
      simp [handleNext, hq]
    · left
      simp [handleNext, hq, startItem_mode]

/-- C8 witness: a concrete evaluating state with an empty remaining queue
degrades to feedback and then finishes. -/
theorem c8_degrade_not_crash_witness :
    (SessionState.mk StudyState.evaluating [] none (some "q") "" none "" true "k").mode
      = StudyState.evaluating ∧
    (resolveEvaluation EvalOutcome.failed
        (SessionState.mk StudyState.evaluating [] none (some "q") "" none "" true "k")).mode
      = StudyState.feedback := by
  refine ⟨rfl, ?_⟩
  exact (c8_degrade_not_crash
    (SessionState.mk StudyState.evaluating [] none (some "q") "" none "" true "k")
    GenOutcome.failed rfl rfl).1

/-- C9: the scheduler is total over all (possibly non-numeric) inputs, and a
non-numeric previous state is coerced componentwise to the documented
defaults — repetition 0, efactor 2.5, interval 0 — still yielding a valid
next state (interval >= 1, efactor >= 1.3, and a nonnegative repetition from
the default previous repetition). -/
theorem c9_defensive_coercion (grade : ℚ) (r e i : Option ℚ) (now off : ℤ) :
    calculateNextReview grade none e i now off
      = calculateNextReview grade (some 0) e i now off ∧
    calculateNextReview grade r none i now off
      = calculateNextReview grade r (some 2.5) i now off ∧
    calculateNextReview grade r e none now off
      = calculateNextReview grade r e (some 0) now off ∧
    1 ≤ (calculateNextReview grade none none none now off).interval ∧
    1.3 ≤ (calculateNextReview grade none none none now off).efactor ∧
    0 ≤ (calculateNextReview grade none none none now off).repetition := by
  have h0 : jsNumOr none (0 : ℚ) = jsNumOr (some 0) 0 := by simp [jsNumOr]
  have h25 : jsNumOr none (2.5 : ℚ) = jsNumOr (some 2.5) 2.5 := by simp [jsNumOr]
  refine ⟨?_, ?_, ?_, one_le_clampInterval _, le_newEFactor _ _, ?_⟩
  · unfold calculateNextReview
    rw [h0]
  · unfold calculateNextReview
    rw [h25]
  · unfold calculateNextReview
    rw [h0]
  · simp only [calculateNextReview, newRepetition, jsNumOr]
    split
    · norm_num
    · norm_num

/-- C10: when no progress record exists for the item's termId, the
component-side transaction writes nothing at all — both stores are returned
unchanged — whereas the service-side saveSessionProgress falls back to the
caller's copy and still writes: a progress record with one appended history
entry, and the XP onto the settings record. -/
theorem c10_missing_record_paths (grade : ℚ) (termId : String)
    (cp : ProgressRecord) (store : Database) (now off : ℤ)
    (h : store.progress termId = none) :
    (updateProgress grade termId store now off).db = store ∧
    ((saveSessionProgress termId grade cp store now off).db.progress cp.termId).map
        (fun p => p.history.length) = some (cp.history.length + 1) ∧
    (saveSessionProgress termId grade cp store now off).db.settings
      = addXp store.settings (10 + grade * 2) := by
  refine ⟨?_, ?_, rfl⟩
  · simp [updateProgress, h]
  · simp [saveSessionProgress, h, appendHistory]

/-- C10 witness: a wholly empty store — the component path is a no-op while
the service path records the fallback copy. -/
theorem c10_missing_record_paths_witness :
    (Database.mk (fun _ => none) none).progress "t1" = none ∧
    (updateProgress 4 "t1" (Database.mk (fun _ => none) none) 0 0).db
      = Database.mk (fun _ => none) none ∧
    ((saveSessionProgress "t1" 4 ⟨"t1", 0, 0, 0, 1, []⟩
        (Database.mk (fun _ => none) none) 0 0).db.progress "t1").map
        (fun p => p.history.length) = some 1 := by
  have h := c10_missing_record_paths 4 "t1" ⟨"t1", 0, 0, 0, 1, []⟩
    (Database.mk (fun _ => none) none) 0 0 rfl
  exact ⟨rfl, h.1, h.2.1⟩

end ProjectDictionary
